import Mathlib

/-!
Verification of the agentic tool-call loop of `gemini.mjs` (a CLI agent that
mediates between a human operator and a remote LLM, gating model-requested
shell/file actions behind interactive approval).

Strings of the JavaScript source are embedded as `List Char` (`Str`), so that
`length`, `substring` (`take`) and `toLowerCase` (`map Char.toLower`) keep
their source semantics while staying proof-friendly.

The external world (the `execSync` subprocess, `fs.writeFileSync` with its
`mkdirSync`, and `fs.readFileSync`) is an oracle `Env` whose operations either
succeed with text or throw with an error message, mirroring the `try/catch`
in the source.  The remote model (`chat.sendMessage`) is a scripted transport:
a list of turns, each either a successful batch of parts or a transport-level
failure.
-/

/-- JavaScript strings are embedded as lists of characters. -/
abbrev Str := List Char

/-- `answer.toLowerCase()` of the source. -/
def toLower (s : Str) : Str := s.map Char.toLower

/-- The arguments object of a function call; the source reads the fields
`args.command`, `args.path` and `args.content`. -/
structure Args where
  command : Str
  path : Str
  content : Str
deriving DecidableEq

/-- A `functionCall` part produced by the model: its `name`, its `args`, and
the serialized form `JSON.stringify(call.args)` that the source computes for
display purposes only. -/
structure FunctionCall where
  name : Str
  args : Args
  argsJson : Str
deriving DecidableEq

/-- One part of a model turn: either narrative text or a function call
(`p.text` / `p.functionCall` in the SDK response). -/
inductive MsgPart where
  | text (s : Str)
  | functionCall (fc : FunctionCall)
deriving DecidableEq

/-- `result.response.candidates[0].content.parts.some(p => p.functionCall)`:
the loop guard; a turn is pending iff some part is a function call. -/
def isPendingTurn (parts : List MsgPart) : Bool :=
  parts.any fun p =>
    match p with
    | .functionCall _ => true
    | _ => false

/-- `parts.filter(p => p.functionCall).map(p => p.functionCall)`. -/
def functionCallsOf (parts : List MsgPart) : List FunctionCall :=
  parts.filterMap fun p =>
    match p with
    | .functionCall fc => some fc
    | _ => none

/-- `result.response.text()`: the concatenation of the text parts of a turn. -/
def textOf (parts : List MsgPart) : Str :=
  (parts.filterMap fun p =>
    match p with
    | .text s => some s
    | _ => none).flatten

/-- Oracle for the side-effecting operations of the executor.  `execShell`
models `execSync(command, {stdio: 'pipe'}).toString()`; `writeFile` models
`mkdirSync` + `writeFileSync`; `readFile` models `readFileSync(..., 'utf8')`.
`Except.error m` models the operation throwing with `err.message = m`. -/
structure Env where
  execShell : Str → Except Str Str
  writeFile : Str → Str → Except Str Unit
  readFile : Str → Except Str Str

/-- The outcome pushed into `functionResponses`: `{content: output}` on
success, `{error: errorMsg}` otherwise. -/
inductive Outcome where
  | content (text : Str)
  | error (msg : Str)
deriving DecidableEq

/-- One element of the `functionResponses` array:
`{functionResponse: {name: call.name, response: ...}}`. -/
structure FunctionResponse where
  name : Str
  response : Outcome
deriving DecidableEq

/-- The operator's decision, per the spec's ApprovalDecision enum.  The source
branches on `answer.toLowerCase() === 'y'` / `=== 'skip'` / anything else. -/
inductive Decision where
  | approve
  | skip
  | deny
deriving DecidableEq

/-- The approval-gate branch of the source:
`if (answer.toLowerCase() === 'y') ... else if (answer.toLowerCase() === 'skip')
... else ...`. -/
def approvalDecision (answer : Str) : Decision :=
  if toLower answer = "y".toList then .approve
  else if toLower answer = "skip".toList then .skip
  else .deny

/-- The truncation marker appended to over-long shell output. -/
def TRUNC_MARKER : Str := "\n...[OUTPUT TRUNCATED]...".toList

/-- `if (output.length > 2000) output = output.substring(0, 2000) + "\n...[OUTPUT TRUNCATED]...";`. -/
def truncateOutput (output : Str) : Str :=
  if output.length > 2000 then output.take 2000 ++ TRUNC_MARKER else output

/-- The `try` block run when the operator approved: dispatch on `call.name`.
An unknown name falls through every branch, leaving `output = ""` and
`errorMsg = null`; the `catch` turns a thrown `err` into `errorMsg`. -/
def executeApproved (env : Env) (name : Str) (args : Args) : Outcome :=
  if name = "run_shell_command".toList then
    match env.execShell args.command with
    | .ok raw => .content (truncateOutput raw)
    | .error e => .error e
  else if name = "write_file".toList then
    match env.writeFile args.path args.content with
    | .ok _ => .content ("Successfully wrote file: ".toList ++ args.path)
    | .error e => .error e
  else if name = "read_file".toList then
    match env.readFile args.path with
    | .ok text => .content text
    | .error e => .error e
  else .content []

/-- The per-call approval/execution logic of the loop body: approve runs the
executor, skip and deny synthesize the corresponding error message. -/
def processCall (env : Env) (answer : Str) (call : FunctionCall) : Outcome :=
  match approvalDecision answer with
  | .approve => executeApproved env call.name call.args
  | .skip => .error ("User explicitly skipped this action.".toList)
  | .deny => .error ("User denied permission.".toList)

/-- `JSON.stringify(call.args).length > 150 ? ...substring(0, 150) + '...}' :
JSON.stringify(call.args)`: the display form of the arguments. -/
def safeArgsLog (argsJson : Str) : Str :=
  if argsJson.length > 150 then argsJson.take 150 ++ "...\x7d".toList else argsJson

/-- The console line `[AI Action Request]: ${call.name} -> ${safeArgsLog}`. -/
def actionRequestLine (call : FunctionCall) : Str :=
  "\n[AI Action Request]: ".toList ++ call.name ++ " -> ".toList
    ++ safeArgsLog call.argsJson

/-- One iteration of `for (const call of functionCalls)`: the line displayed
to the operator, and the `functionResponse` pushed for this call. -/
def handleCall (env : Env) (answer : Str) (call : FunctionCall) :
    Str × FunctionResponse :=
  (actionRequestLine call,
   { name := call.name, response := processCall env answer call })

/-- The whole `for` loop over a batch: one operator answer is consumed per
call (a missing answer reads as the empty line, which denies), and one
response is pushed per call, in order. -/
def processBatch (env : Env) :
    List FunctionCall → List Str → List FunctionResponse × List Str
  | [], answers => ([], answers)
  | call :: calls, answers =>
    let h := handleCall env (answers.headD []) call
    let rest := processBatch env calls answers.tail
    (h.2 :: rest.1, rest.2)

/-- Failure of the remote call itself: either the scripted transport returned
an error, or the script had no further response for a required call. -/
inductive TransportError where
  | remote (msg : Str)
  | exhausted
deriving DecidableEq

/-- The batch of requests of one pending model turn together with the batch
of results sent back for it. -/
structure TurnRecord where
  requests : List FunctionCall
  results : List FunctionResponse
deriving DecidableEq

/-- Observable trace of one run: the final result (`Except.ok` is the final
text printed by `console.log`), the number of `chat.sendMessage` transport
invocations, the number of `askPermission` gate prompts, and, per pending
turn, the request/response batches. -/
structure RunResult where
  result : Except TransportError Str
  transportCalls : Nat
  gateCalls : Nat
  turns : List TurnRecord

/-- The `while (...some(p => p.functionCall))` loop, driven by the scripted
transport.  `script` holds the responses of the remaining `sendMessage`
calls; `parts` is the current model turn; `answers` the operator's input
stream.  While the turn is pending, the batch is processed and sent; a
non-pending turn ends the loop with its text. -/
def runLoop (env : Env) :
    List (Except Str (List MsgPart)) → List MsgPart → List Str → RunResult
  | [], parts, answers =>
    if isPendingTurn parts then
      { result := .error .exhausted
        transportCalls := 1
        gateCalls := (functionCallsOf parts).length
        turns := [⟨functionCallsOf parts,
                   (processBatch env (functionCallsOf parts) answers).1⟩] }
    else
      { result := .ok (textOf parts), transportCalls := 0, gateCalls := 0,
        turns := [] }
  | .error m :: _, parts, answers =>
    if isPendingTurn parts then
      { result := .error (.remote m)
        transportCalls := 1
        gateCalls := (functionCallsOf parts).length
        turns := [⟨functionCallsOf parts,
                   (processBatch env (functionCallsOf parts) answers).1⟩] }
    else
      { result := .ok (textOf parts), transportCalls := 0, gateCalls := 0,
        turns := [] }
  | .ok next :: rest, parts, answers =>
    if isPendingTurn parts then
      let pb := processBatch env (functionCallsOf parts) answers
      let r := runLoop env rest next pb.2
      { result := r.result
        transportCalls := r.transportCalls + 1
        gateCalls := r.gateCalls + (functionCallsOf parts).length
        turns := ⟨functionCallsOf parts, pb.1⟩ :: r.turns }
    else
      { result := .ok (textOf parts), transportCalls := 0, gateCalls := 0,
        turns := [] }

/-- `run()` after the initial `chat.sendMessage(userPrompt)`: the first
script entry answers the initial message, then the loop runs. -/
def runConversation (env : Env) (answers : List Str)
    (script : List (Except Str (List MsgPart))) : RunResult :=
  match script with
  | [] => { result := .error .exhausted, transportCalls := 1, gateCalls := 0,
            turns := [] }
  | .error m :: _ =>
    { result := .error (.remote m), transportCalls := 1, gateCalls := 0,
      turns := [] }
  | .ok first :: rest =>
    let r := runLoop env rest first answers
    { r with transportCalls := r.transportCalls + 1 }

def env0 : Env :=
  { execShell := fun _ => .ok ("out".toList)
    writeFile := fun _ _ => .ok ()
    readFile := fun _ => .ok ("data".toList) }

def envFail : Env :=
  { execShell := fun _ => .error ("Command failed: exit 1".toList)
    writeFile := fun _ _ => .error ("EACCES: permission denied".toList)
    readFile := fun _ => .error ("ENOENT: no such file".toList) }

def callShell : FunctionCall :=
  { name := "run_shell_command".toList
    args := { command := "ls".toList, path := [], content := [] }
    argsJson := "ls".toList }

def callUnknown : FunctionCall :=
  { name := "delete_everything".toList
    args := { command := [], path := [], content := [] }
    argsJson := [] }

def callBigArgs : FunctionCall :=
  { name := "write_file".toList
    args := { command := [], path := "f.txt".toList, content := List.replicate 300 'a' }
    argsJson := List.replicate 300 'a' }

def script0 : List (Except Str (List MsgPart)) :=
  [.ok [.functionCall callShell], .ok [.text ("done".toList)]]

def scriptRemoteFail : List (Except Str (List MsgPart)) :=
  [Except.error ("fetch failed".toList)]

lemma approvalDecision_approve_iff (answer : Str) :
    approvalDecision answer = .approve ↔ toLower answer = "y".toList := by
  unfold approvalDecision
  split_ifs with h1 h2
  · exact iff_of_true rfl h1
  · exact iff_of_false (by decide) h1
  · exact iff_of_false (by decide) h1

lemma approvalDecision_skip_iff (answer : Str) :
    approvalDecision answer = .skip ↔ toLower answer = "skip".toList := by
  unfold approvalDecision
  split_ifs with h1 h2
  · exact iff_of_false (by decide) fun h2 => absurd (h1.symm.trans h2) (by decide)
  · exact iff_of_true rfl h2
  · exact iff_of_false (by decide) h2

lemma approvalDecision_deny (answer : Str) (h1 : toLower answer ≠ "y".toList)
    (h2 : toLower answer ≠ "skip".toList) : approvalDecision answer = .deny := by
  unfold approvalDecision
  rw [if_neg h1, if_neg h2]

lemma processCall_of_approve {answer : Str} (h : approvalDecision answer = .approve)
    (env : Env) (call : FunctionCall) :
    processCall env answer call = executeApproved env call.name call.args := by
  unfold processCall
  rw [h]

lemma processCall_of_skip {answer : Str} (h : approvalDecision answer = .skip)
    (env : Env) (call : FunctionCall) :
    processCall env answer call = .error ("User explicitly skipped this action.".toList) := by
  unfold processCall
  rw [h]

lemma processCall_of_deny {answer : Str} (h : approvalDecision answer = .deny)
    (env : Env) (call : FunctionCall) :
    processCall env answer call = .error ("User denied permission.".toList) := by
  unfold processCall
  rw [h]

lemma executeApproved_unknown (env : Env) (name : Str) (args : Args)
    (hn1 : name ≠ "run_shell_command".toList) (hn2 : name ≠ "write_file".toList)
    (hn3 : name ≠ "read_file".toList) : executeApproved env name args = .content [] := by
  unfold executeApproved
  rw [if_neg hn1, if_neg hn2, if_neg hn3]

lemma processBatch_fst_length (env : Env) (calls : List FunctionCall) :
    ∀ answers : List Str, ((processBatch env calls answers).1).length = calls.length := by
  induction calls with
  | nil => intro answers; rfl
  | cons c cs ih => intro answers; simp [processBatch, ih]

lemma processBatch_fst_names (env : Env) (calls : List FunctionCall) :
    ∀ answers : List Str,
      ((processBatch env calls answers).1).map FunctionResponse.name =
        calls.map FunctionCall.name := by
  induction calls with
  | nil => intro answers; rfl
  | cons c cs ih => intro answers; simp [processBatch, handleCall, ih]

lemma runLoop_turns_mem (env : Env) (script : List (Except Str (List MsgPart))) :
    ∀ (parts : List MsgPart) (answers : List Str) (rec : TurnRecord),
      rec ∈ (runLoop env script parts answers).turns →
      ∃ ans : List Str, rec.results = (processBatch env rec.requests ans).1 := by
  induction script with
  | nil =>
    intro parts answers rec h
    cases hp : isPendingTurn parts <;> simp [runLoop, hp] at h
    exact ⟨answers, by rw [h]⟩
  | cons head rest ih =>
    intro parts answers rec h
    cases head with
    | error m =>
      cases hp : isPendingTurn parts <;> simp [runLoop, hp] at h
      exact ⟨answers, by rw [h]⟩
    | ok next =>
      cases hp : isPendingTurn parts <;> simp [runLoop, hp] at h
      rcases h with h | h
      · exact ⟨answers, by rw [h]⟩
      · exact ih next (processBatch env (functionCallsOf parts) answers).2 rec h

lemma runLoop_remote_mem (env : Env) (script : List (Except Str (List MsgPart))) :
    ∀ (parts : List MsgPart) (answers : List Str) (m : Str),
      (runLoop env script parts answers).result = .error (.remote m) →
      Except.error m ∈ script := by
  induction script with
  | nil =>
    intro parts answers m h
    cases hp : isPendingTurn parts <;> simp [runLoop, hp] at h
  | cons head rest ih =>
    intro parts answers m h
    cases head with
    | error mHead =>
      cases hp : isPendingTurn parts <;> simp [runLoop, hp] at h
      rw [h]
      exact List.mem_cons_self _ _
    | ok next =>
      cases hp : isPendingTurn parts <;> simp [runLoop, hp] at h
      exact List.mem_cons_of_mem _
        (ih next (processBatch env (functionCallsOf parts) answers).2 m h)

lemma runLoop_ok_source (env : Env) (script : List (Except Str (List MsgPart))) :
    ∀ (parts : List MsgPart) (answers : List Str) (t : Str),
      (runLoop env script parts answers).result = .ok t →
      (isPendingTurn parts = false ∧ t = textOf parts) ∨
      ∃ ps : List MsgPart, Except.ok ps ∈ script ∧ isPendingTurn ps = false ∧
        t = textOf ps := by
  induction script with
  | nil =>
    intro parts answers t h
    cases hp : isPendingTurn parts <;> simp [runLoop, hp] at h
    exact Or.inl ⟨rfl, h.symm⟩
  | cons head rest ih =>
    intro parts answers t h
    cases head with
    | error mHead =>
      cases hp : isPendingTurn parts <;> simp [runLoop, hp] at h
      exact Or.inl ⟨rfl, h.symm⟩
    | ok next =>
      cases hp : isPendingTurn parts <;> simp [runLoop, hp] at h
      · exact Or.inl ⟨rfl, h.symm⟩
      · rcases ih next (processBatch env (functionCallsOf parts) answers).2 t h with
          ⟨hnp, ht⟩ | ⟨ps, hmem, hnp, ht⟩
        · exact Or.inr ⟨next, List.mem_cons_self _ _, hnp, ht⟩
        · exact Or.inr ⟨ps, List.mem_cons_of_mem _ hmem, hnp, ht⟩

lemma runLoop_scripted (env : Env) (finalParts : List MsgPart)
    (hfin : isPendingTurn finalParts = false) (pts : List (List MsgPart)) :
    ∀ (first : List MsgPart) (answers : List Str),
      isPendingTurn first = true →
      (∀ t ∈ pts, isPendingTurn t = true) →
      (runLoop env (pts.map Except.ok ++ [Except.ok finalParts])
          first answers).result = Except.ok (textOf finalParts) ∧
      (runLoop env (pts.map Except.ok ++ [Except.ok finalParts])
          first answers).transportCalls = pts.length + 1 ∧
      (runLoop env (pts.map Except.ok ++ [Except.ok finalParts])
          first answers).gateCalls =
        (functionCallsOf first).length +
          (pts.map fun t => (functionCallsOf t).length).sum := by
  induction pts with
  | nil =>
    intro first answers h1 _
    simp [runLoop, h1, hfin]
  | cons p ps ih =>
    intro first answers h1 hall
    have hp : isPendingTurn p = true := hall p (by simp)
    have hps : ∀ t ∈ ps, isPendingTurn t = true := fun t ht => hall t (by simp [ht])
    obtain ⟨r1, r2, r3⟩ :=
      ih p (processBatch env (functionCallsOf first) answers).2 hp hps
    simp only [List.map_cons, List.cons_append]
    simp [runLoop, h1, r1, r2, r3]
    omega

/-- Claim C1: for every operator input string, the Approval Gate decides
Approve iff the input lowercases to "y", Skip iff it lowercases to "skip",
and Deny for anything else, including the empty string. -/
theorem claim_C1_approval_gate_fail_closed (answer : Str) :
    (approvalDecision answer = .approve ↔ toLower answer = "y".toList) ∧
    (approvalDecision answer = .skip ↔ toLower answer = "skip".toList) ∧
    (toLower answer ≠ "y".toList → toLower answer ≠ "skip".toList →
      approvalDecision answer = .deny) ∧
    approvalDecision [] = .deny :=
  ⟨approvalDecision_approve_iff answer, approvalDecision_skip_iff answer,
   approvalDecision_deny answer, by decide⟩

/-- Witness for C1 at concrete inputs. -/
theorem claim_C1_witness :
    approvalDecision ("maybe".toList) = .deny ∧
    approvalDecision ("Y".toList) = .approve :=
  ⟨(claim_C1_approval_gate_fail_closed ("maybe".toList)).2.2.1 (by decide) (by decide),
   (claim_C1_approval_gate_fail_closed ("Y".toList)).1.mpr (by decide)⟩

/-- Claim C2: for every model turn containing ActionRequests, the batch of
ActionResults sent back has exactly one result per request, in the order
received (equal name sequences, and the whole batch is exactly what
processing the request list produces), before any further transport call. -/
theorem claim_C2_batch_one_to_one_order (env : Env) (answers : List Str)
    (script : List (Except Str (List MsgPart))) (rec : TurnRecord)
    (h : rec ∈ (runConversation env answers script).turns) :
    rec.results.length = rec.requests.length ∧
    rec.results.map FunctionResponse.name = rec.requests.map FunctionCall.name ∧
    ∃ ans : List Str, rec.results = (processBatch env rec.requests ans).1 := by
  have hmem : ∃ ans : List Str, rec.results = (processBatch env rec.requests ans).1 := by
    cases script with
    | nil => simp [runConversation] at h
    | cons head rest =>
      cases head with
      | error m => simp [runConversation] at h
      | ok first => exact runLoop_turns_mem env rest first answers rec h
  obtain ⟨ans, hres⟩ := hmem
  refine ⟨?_, ?_, ans, hres⟩
  · rw [hres, processBatch_fst_length]
  · rw [hres, processBatch_fst_names]

/-- Witness for C2 on a concrete one-batch run. -/
theorem claim_C2_witness :
    (⟨[callShell], [⟨callShell.name, .content ("out".toList)⟩]⟩ : TurnRecord).results.length =
      (⟨[callShell], [⟨callShell.name, .content ("out".toList)⟩]⟩ : TurnRecord).requests.length ∧
    (⟨[callShell], [⟨callShell.name, .content ("out".toList)⟩]⟩ : TurnRecord).results.map
        FunctionResponse.name =
      (⟨[callShell], [⟨callShell.name, .content ("out".toList)⟩]⟩ : TurnRecord).requests.map
        FunctionCall.name ∧
    ∃ ans : List Str,
      (⟨[callShell], [⟨callShell.name, .content ("out".toList)⟩]⟩ : TurnRecord).results =
        (processBatch env0
          (⟨[callShell], [⟨callShell.name, .content ("out".toList)⟩]⟩ : TurnRecord).requests
          ans).1 :=
  claim_C2_batch_one_to_one_order env0 [("y".toList)] script0
    ⟨[callShell], [⟨callShell.name, .content ("out".toList)⟩]⟩ (by decide)

/-- Claim C3: only a Transport-level failure terminates the run.  A remote
error in the final result always originates from the scripted transport
itself; an execution failure of any approved action — a failing shell
command (non-zero exit), a failing file write (permission error) or a
failing file read (missing file) — is converted into an Error outcome
carrying the failure message; and after processing a pending batch the loop
simply continues with the transport's next turn, whatever the batch
outcomes were. -/
theorem claim_C3_only_transport_fails_run :
    (∀ (env : Env) (answers : List Str)
       (script : List (Except Str (List MsgPart))) (m : Str),
       (runConversation env answers script).result = .error (.remote m) →
       Except.error m ∈ script) ∧
    (∀ (env : Env) (answer : Str) (args : Args) (argsJson m : Str),
       approvalDecision answer = .approve →
       env.execShell args.command = .error m →
       processCall env answer
           { name := "run_shell_command".toList, args := args,
             argsJson := argsJson } =
         .error m) ∧
    (∀ (env : Env) (answer : Str) (args : Args) (argsJson m : Str),
       approvalDecision answer = .approve →
       env.writeFile args.path args.content = .error m →
       processCall env answer
           { name := "write_file".toList, args := args, argsJson := argsJson } =
         .error m) ∧
    (∀ (env : Env) (answer : Str) (args : Args) (argsJson m : Str),
       approvalDecision answer = .approve →
       env.readFile args.path = .error m →
       processCall env answer
           { name := "read_file".toList, args := args, argsJson := argsJson } =
         .error m) ∧
    (∀ (env : Env) (script : List (Except Str (List MsgPart)))
       (next parts : List MsgPart) (answers : List Str),
       isPendingTurn parts = true →
       (runLoop env (Except.ok next :: script) parts answers).result =
         (runLoop env script next
           (processBatch env (functionCallsOf parts) answers).2).result) := by
  refine ⟨fun env answers script m h => ?_,
          fun env answer args argsJson m ha h => ?_,
          fun env answer args argsJson m ha h => ?_,
          fun env answer args argsJson m ha h => ?_,
          fun env script next parts answers hp => ?_⟩
  · cases script with
    | nil => simp [runConversation] at h
    | cons head rest =>
      cases head with
      | error mHead =>
        simp [runConversation] at h
        rw [h]
        exact List.mem_cons_self _ _
      | ok first =>
        exact List.mem_cons_of_mem _ (runLoop_remote_mem env rest first answers m h)
  · rw [processCall_of_approve ha env _]
    show executeApproved env ("run_shell_command".toList) args = .error m
    unfold executeApproved
    rw [if_pos rfl, h]
  · rw [processCall_of_approve ha env _]
    show executeApproved env ("write_file".toList) args = .error m
    unfold executeApproved
    rw [if_neg (by decide), if_pos rfl, h]
  · rw [processCall_of_approve ha env _]
    show executeApproved env ("read_file".toList) args = .error m
    unfold executeApproved
    rw [if_neg (by decide), if_neg (by decide), if_pos rfl, h]
  · simp [runLoop, hp]

/-- Witness for C3 at concrete inputs: a failing remote call is traced back to
the transport script; an approved shell command, file write and file read
whose execution fails each become an Error outcome carrying the failure
message; and a pending batch full of failures still continues the loop. -/
theorem claim_C3_witness :
    Except.error ("fetch failed".toList) ∈ scriptRemoteFail ∧
    processCall envFail ("y".toList)
        { name := "run_shell_command".toList, args := callShell.args,
          argsJson := callShell.argsJson } =
      .error ("Command failed: exit 1".toList) ∧
    processCall envFail ("y".toList)
        { name := "write_file".toList, args := callBigArgs.args,
          argsJson := callBigArgs.argsJson } =
      .error ("EACCES: permission denied".toList) ∧
    processCall envFail ("y".toList)
        { name := "read_file".toList, args := callBigArgs.args,
          argsJson := callBigArgs.argsJson } =
      .error ("ENOENT: no such file".toList) ∧
    (runLoop envFail (Except.ok [.text ("done".toList)] :: [])
        [.functionCall callShell] [("y".toList)]).result =
      (runLoop envFail [] [.text ("done".toList)]
        (processBatch envFail (functionCallsOf [.functionCall callShell])
          [("y".toList)]).2).result :=
  ⟨claim_C3_only_transport_fails_run.1 envFail [] scriptRemoteFail
     ("fetch failed".toList) (by rfl),
   claim_C3_only_transport_fails_run.2.1 envFail ("y".toList) callShell.args
     callShell.argsJson ("Command failed: exit 1".toList) (by decide) rfl,
   claim_C3_only_transport_fails_run.2.2.1 envFail ("y".toList) callBigArgs.args
     callBigArgs.argsJson ("EACCES: permission denied".toList) (by decide) rfl,
   claim_C3_only_transport_fails_run.2.2.2.1 envFail ("y".toList) callBigArgs.args
     callBigArgs.argsJson ("ENOENT: no such file".toList) (by decide) rfl,
   claim_C3_only_transport_fails_run.2.2.2.2 envFail [] [.text ("done".toList)]
     [.functionCall callShell] [("y".toList)] (by decide)⟩

/-- Counterexample to C4 as stated: the Deny and Skip messages in the code end
with a trailing period, so the message for input "n" is
"User denied permission." and not "User denied permission" (and likewise for
skip). -/
theorem claim_C4_counterexample :
    processCall env0 ("n".toList) callShell =
      .error ("User denied permission.".toList) ∧
    ("User denied permission.".toList : Str) ≠ "User denied permission".toList ∧
    processCall env0 ("skip".toList) callShell =
      .error ("User explicitly skipped this action.".toList) ∧
    ("User explicitly skipped this action.".toList : Str) ≠
      "User explicitly skipped this action".toList := by
  refine ⟨?_, by decide, ?_, by decide⟩
  · exact processCall_of_deny (by decide) env0 callShell
  · exact processCall_of_skip (by decide) env0 callShell

/-- Claim C4 (amended): for every ActionRequest whose approval decision is
Deny or Skip, no execution occurs (the outcome is independent of the
executor environment) and an Error outcome is synthesized with message
"User denied permission." for Deny and "User explicitly skipped this
action." for Skip; apart from the message text the two decisions take the
same path. -/
theorem claim_C4_deny_skip_no_execution (env envAlt : Env) (answer : Str)
    (call : FunctionCall) :
    (approvalDecision answer = .deny →
      processCall env answer call = .error ("User denied permission.".toList)) ∧
    (approvalDecision answer = .skip →
      processCall env answer call =
        .error ("User explicitly skipped this action.".toList)) ∧
    (approvalDecision answer ≠ .approve →
      processCall env answer call = processCall envAlt answer call) := by
  refine ⟨fun h => processCall_of_deny h env call,
          fun h => processCall_of_skip h env call, fun h => ?_⟩
  cases hd : approvalDecision answer with
  | approve => exact absurd hd h
  | skip => rw [processCall_of_skip hd env call, processCall_of_skip hd envAlt call]
  | deny => rw [processCall_of_deny hd env call, processCall_of_deny hd envAlt call]

/-- Witness for the amended C4 at a concrete denial. -/
theorem claim_C4_witness :
    processCall env0 ("n".toList) callShell =
      .error ("User denied permission.".toList) ∧
    processCall env0 ("n".toList) callShell =
      processCall { execShell := fun _ => .error ("boom".toList)
                    writeFile := fun _ _ => .error ("boom".toList)
                    readFile := fun _ => .error ("boom".toList) } ("n".toList) callShell :=
  ⟨(claim_C4_deny_skip_no_execution env0 env0 ("n".toList) callShell).1 (by decide),
   (claim_C4_deny_skip_no_execution env0
      { execShell := fun _ => .error ("boom".toList)
        writeFile := fun _ _ => .error ("boom".toList)
        readFile := fun _ => .error ("boom".toList) } ("n".toList) callShell).2.2 (by decide)⟩

/-- Claim C5: for every approved run_shell_command whose captured output is
longer than 2000 characters, the stored result is the first 2000 characters
with the truncation marker appended exactly once, so its length is
2000 plus the marker's length; output of at most 2000 characters is
returned unchanged. -/
theorem claim_C5_shell_output_truncation (env : Env) (answer : Str)
    (args : Args) (argsJson raw : Str) :
    (raw.length > 2000 →
      truncateOutput raw = raw.take 2000 ++ TRUNC_MARKER ∧
      (truncateOutput raw).length = 2000 + TRUNC_MARKER.length) ∧
    (raw.length ≤ 2000 → truncateOutput raw = raw) ∧
    (approvalDecision answer = .approve → env.execShell args.command = .ok raw →
      processCall env answer
          { name := "run_shell_command".toList, args := args, argsJson := argsJson } =
        .content (truncateOutput raw)) := by
  refine ⟨fun h => ⟨?_, ?_⟩, fun h => ?_, fun ha hx => ?_⟩
  · rw [truncateOutput, if_pos h]
  · rw [truncateOutput, if_pos h]
    simp [List.length_append, List.length_take]
    omega
  · rw [truncateOutput, if_neg (by omega)]
  · rw [processCall_of_approve ha env _]
    unfold executeApproved
    rw [if_pos rfl, hx]

/-- Witness for C5: a 2001-character output is truncated to length
2000 + marker length, and a concrete approved shell call stores the
truncated output. -/
theorem claim_C5_witness :
    (truncateOutput (List.replicate 2001 'a') =
        (List.replicate 2001 'a').take 2000 ++ TRUNC_MARKER ∧
      (truncateOutput (List.replicate 2001 'a')).length =
        2000 + TRUNC_MARKER.length) ∧
    processCall env0 ("y".toList) callShell =
      .content (truncateOutput ("out".toList)) :=
  ⟨(claim_C5_shell_output_truncation env0 ("y".toList) callShell.args
      callShell.argsJson (List.replicate 2001 'a')).1
      (by rw [List.length_replicate]; omega),
   (claim_C5_shell_output_truncation env0 ("y".toList) callShell.args
      callShell.argsJson ("out".toList)).2.2 (by decide) rfl⟩

/-- Claim C6: for every scripted transport returning N batches of
ActionRequests followed by a final-text turn, the controller invokes the
transport exactly N+1 times, prompts the Approval Gate once per requested
action (the sum of the batch sizes), terminates, and returns the final
text. -/
theorem claim_C6_scripted_run_termination (env : Env) (answers : List Str)
    (pendingTurns : List (List MsgPart)) (finalParts : List MsgPart)
    (hall : ∀ t ∈ pendingTurns, isPendingTurn t = true)
    (hfin : isPendingTurn finalParts = false) :
    (runConversation env answers
        (pendingTurns.map Except.ok ++ [Except.ok finalParts])).result =
      Except.ok (textOf finalParts) ∧
    (runConversation env answers
        (pendingTurns.map Except.ok ++ [Except.ok finalParts])).transportCalls =
      pendingTurns.length + 1 ∧
    (runConversation env answers
        (pendingTurns.map Except.ok ++ [Except.ok finalParts])).gateCalls =
      (pendingTurns.map fun t => (functionCallsOf t).length).sum := by
  cases pendingTurns with
  | nil => simp [runConversation, runLoop, hfin]
  | cons p ps =>
    have hp : isPendingTurn p = true := hall p (by simp)
    have hps : ∀ t ∈ ps, isPendingTurn t = true := fun t ht => hall t (by simp [ht])
    obtain ⟨r1, r2, r3⟩ := runLoop_scripted env finalParts hfin ps p answers hp hps
    simp only [List.map_cons, List.cons_append]
    simp [runConversation, r1, r2, r3]

/-- Witness for C6: a script with two one-request batches and a final turn
makes exactly three transport calls, two gate prompts, and returns the final
text. -/
theorem claim_C6_witness :
    (runConversation env0 [("y".toList), ("n".toList)]
        ([[MsgPart.functionCall callShell],
          [MsgPart.functionCall callShell]].map Except.ok ++
          [Except.ok [MsgPart.text ("done".toList)]])).result =
      Except.ok (textOf [MsgPart.text ("done".toList)]) ∧
    (runConversation env0 [("y".toList), ("n".toList)]
        ([[MsgPart.functionCall callShell],
          [MsgPart.functionCall callShell]].map Except.ok ++
          [Except.ok [MsgPart.text ("done".toList)]])).transportCalls =
      [[MsgPart.functionCall callShell], [MsgPart.functionCall callShell]].length + 1 ∧
    (runConversation env0 [("y".toList), ("n".toList)]
        ([[MsgPart.functionCall callShell],
          [MsgPart.functionCall callShell]].map Except.ok ++
          [Except.ok [MsgPart.text ("done".toList)]])).gateCalls =
      ([[MsgPart.functionCall callShell], [MsgPart.functionCall callShell]].map
        fun t => (functionCallsOf t).length).sum :=
  claim_C6_scripted_run_termination env0 [("y".toList), ("n".toList)]
    [[MsgPart.functionCall callShell], [MsgPart.functionCall callShell]]
    [MsgPart.text ("done".toList)] (by decide) (by decide)

/-- Counterexample to C7 as stated: an approved action whose name is outside
the fixed set falls through every branch of the dispatch, so the code
synthesizes a Success outcome with empty content (a silent no-op), not an
UnknownAction error. -/
theorem claim_C7_counterexample :
    processCall env0 ("y".toList) callUnknown = .content [] := by decide

/-- Claim C7 (amended): for every approved ActionRequest whose name is outside
the fixed set, the code executes nothing (outcome independent of the
environment) and yields a Success outcome with empty content; no
UnknownAction error exists in the code. -/
theorem claim_C7_unknown_action_silent_noop (env envAlt : Env) (answer : Str)
    (call : FunctionCall) (ha : approvalDecision answer = .approve)
    (hn1 : call.name ≠ "run_shell_command".toList)
    (hn2 : call.name ≠ "write_file".toList)
    (hn3 : call.name ≠ "read_file".toList) :
    processCall env answer call = .content [] ∧
    processCall env answer call = processCall envAlt answer call := by
  rw [processCall_of_approve ha env call, processCall_of_approve ha envAlt call,
      executeApproved_unknown env call.name call.args hn1 hn2 hn3,
      executeApproved_unknown envAlt call.name call.args hn1 hn2 hn3]
  exact ⟨rfl, rfl⟩

/-- Witness for the amended C7 at a concrete unknown action. -/
theorem claim_C7_witness :
    processCall env0 ("y".toList) callUnknown = .content [] ∧
    processCall env0 ("y".toList) callUnknown =
      processCall { execShell := fun _ => .error ("boom".toList)
                    writeFile := fun _ _ => .error ("boom".toList)
                    readFile := fun _ => .error ("boom".toList) } ("y".toList) callUnknown :=
  claim_C7_unknown_action_silent_noop env0
    { execShell := fun _ => .error ("boom".toList)
      writeFile := fun _ _ => .error ("boom".toList)
      readFile := fun _ => .error ("boom".toList) } ("y".toList) callUnknown
    (by decide) (by decide) (by decide) (by decide)

/-- Claim C8: a model turn is non-terminal iff it contains at least one
action request, regardless of narrative text; the run's displayed final text
always comes from a turn with no action requests. -/
theorem claim_C8_pending_iff_action_requests :
    (∀ parts : List MsgPart,
       isPendingTurn parts = true ↔ ∃ fc, MsgPart.functionCall fc ∈ parts) ∧
    (∀ (s : Str) (fc : FunctionCall) (rest : List MsgPart),
       isPendingTurn (MsgPart.text s :: MsgPart.functionCall fc :: rest) = true) ∧
    (∀ (env : Env) (answers : List Str)
       (script : List (Except Str (List MsgPart))) (t : Str),
       (runConversation env answers script).result = .ok t →
       ∃ ps : List MsgPart, Except.ok ps ∈ script ∧ isPendingTurn ps = false ∧
         t = textOf ps) := by
  refine ⟨fun parts => ?_, fun s fc rest => ?_, fun env answers script t h => ?_⟩
  · rw [isPendingTurn, List.any_eq_true]
    constructor
    · rintro ⟨p, hp, hmatch⟩
      cases p with
      | text s => simp at hmatch
      | functionCall fc => exact ⟨fc, hp⟩
    · rintro ⟨fc, hmem⟩
      exact ⟨MsgPart.functionCall fc, hmem, rfl⟩
  · rw [isPendingTurn]
    simp
  · cases script with
    | nil => simp [runConversation] at h
    | cons head rest =>
      cases head with
      | error mHead => simp [runConversation] at h
      | ok first =>
        rcases runLoop_ok_source env rest first answers t h with
          ⟨hnp, ht⟩ | ⟨ps, hmem, hnp, ht⟩
        · exact ⟨first, List.mem_cons_self _ _, hnp, ht⟩
        · exact ⟨ps, List.mem_cons_of_mem _ hmem, hnp, ht⟩

/-- Witness for C8: a mixed text-plus-request turn is pending, and the final
text of a concrete run comes from the scripted non-pending turn. -/
theorem claim_C8_witness :
    isPendingTurn [MsgPart.text ("working".toList),
      MsgPart.functionCall callShell] = true ∧
    ∃ ps : List MsgPart, Except.ok ps ∈ script0 ∧ isPendingTurn ps = false ∧
      ("done".toList : Str) = textOf ps :=
  ⟨(claim_C8_pending_iff_action_requests.1 [MsgPart.text ("working".toList),
      MsgPart.functionCall callShell]).mpr ⟨callShell, by decide⟩,
   claim_C8_pending_iff_action_requests.2.2 env0 [("y".toList)] script0
     ("done".toList) (by rfl)⟩

/-- Claim C9: for every ActionRequest presented for approval, a serialized
argument payload longer than 150 characters is truncated in the displayed
description, while the outcome on approval is computed from the original,
untruncated argument values (and is independent of the serialized form
altogether). -/
theorem claim_C9_display_truncation_execution_untruncated (env : Env)
    (answer : Str) (call : FunctionCall) :
    (call.argsJson.length > 150 →
      (handleCall env answer call).1 =
        "\n[AI Action Request]: ".toList ++ call.name ++ " -> ".toList ++
          (call.argsJson.take 150 ++ "...\x7d".toList)) ∧
    (call.argsJson.length ≤ 150 →
      (handleCall env answer call).1 =
        "\n[AI Action Request]: ".toList ++ call.name ++ " -> ".toList ++
          call.argsJson) ∧
    (approvalDecision answer = .approve →
      (handleCall env answer call).2.response =
        executeApproved env call.name call.args) ∧
    (∀ j : Str,
      (handleCall env answer { call with argsJson := j }).2 =
        (handleCall env answer call).2) := by
  refine ⟨fun h => ?_, fun h => ?_, fun ha => ?_, fun j => rfl⟩
  · unfold handleCall actionRequestLine safeArgsLog
    rw [if_pos h]
  · unfold handleCall actionRequestLine safeArgsLog
    rw [if_neg (by omega)]
  · show processCall env answer call = executeApproved env call.name call.args
    exact processCall_of_approve ha env call

/-- Witness for C9: a 300-character serialized payload is displayed truncated
while the approved execution still receives the full argument values. -/
theorem claim_C9_witness :
    (handleCall env0 ("y".toList) callBigArgs).1 =
      "\n[AI Action Request]: ".toList ++ callBigArgs.name ++ " -> ".toList ++
        (callBigArgs.argsJson.take 150 ++ "...\x7d".toList) ∧
    (handleCall env0 ("y".toList) callBigArgs).2.response =
      executeApproved env0 callBigArgs.name callBigArgs.args :=
  ⟨(claim_C9_display_truncation_execution_untruncated env0 ("y".toList)
      callBigArgs).1
      (by show 150 < (List.replicate 300 'a').length
          rw [List.length_replicate]; omega),
   (claim_C9_display_truncation_execution_untruncated env0 ("y".toList)
      callBigArgs).2.2.1 (by decide)⟩

/-- Claim C10: approval matching is exact equality after lowercasing, with no
whitespace trimming and no approve-synonyms: "yes", " y" and "Y " all deny;
only a lowercase form of exactly "y" approves and exactly "skip" skips. -/
theorem claim_C10_exact_matching_no_synonyms :
    approvalDecision ("yes".toList) = .deny ∧
    approvalDecision (" y".toList) = .deny ∧
    approvalDecision ("Y ".toList) = .deny ∧
    approvalDecision ("Y".toList) = .approve ∧
    approvalDecision ("SKIP".toList) = .skip ∧
    (∀ answer : Str, approvalDecision answer = .approve → toLower answer = "y".toList) ∧
    (∀ answer : Str, approvalDecision answer = .skip → toLower answer = "skip".toList) :=
  ⟨by decide, by decide, by decide, by decide, by decide,
   fun answer h => (approvalDecision_approve_iff answer).mp h,
   fun answer h => (approvalDecision_skip_iff answer).mp h⟩

/-- Witness for C10 at a concrete input. -/
theorem claim_C10_witness : toLower ("Y".toList) = "y".toList :=
  claim_C10_exact_matching_no_synonyms.2.2.2.2.2.1 ("Y".toList) (by decide)
